import Mathlib

/-!
The event coalescing engine of go-simplified-fs-watcher.

A shallow embedding of `fswatcher/prevent_multiple_mod_events.go` and of the
path and event normalisation of `fswatcher/watcher.go`.

Modelling conventions.

* A `*WatcherEvent` is a value of `WatcherEvent`; the `Watcher` back pointer is
  a numeric handle, since no code under study looks inside it.
* A send on `resultingChan` appends to the list of sent events that every
  operation returns; the channel is taken to be drained by its consumer, so a
  send never blocks for ever.
* `makeTimestampMs()`, `IsFileBusy` and `FileSizeAndModTime` read the clock and
  the file system: their results are parameters of the operation that calls
  them.  `modTime` stands for `modTime.UnixNano()`, its only use in the code.
* `int64` subtraction and multiplication wrap modulo `2^64` (`wrap64`).
* `p.papa` is passed explicitly as the registry `d`; a tracker that lives in
  `d.files` is written back after a method has mutated it.
* One call of `Process` and one iteration of the loop of `AutoRemoveSomeday`
  are atomic steps.
-/

namespace advfswatcher

/-! ## Machine integers -/

/-- Two's complement wrap of an integer into the `int64` range. -/
def wrap64 (x : Int) : Int := (x + 2 ^ 63) % 2 ^ 64 - 2 ^ 63

/-! ## Events (`watcher.go`) -/

def IsError : Int := 0
def IsCreated : Int := 1
def IsModified : Int := 2
def IsDeleted : Int := 3

/-- The record `WatcherEvent`; the field `Type` of the source is `Typ` here and
`Error` is the message of the Go error (`none` for `nil`). -/
structure WatcherEvent where
  FullFileName : String
  Typ : Int
  StartupEvent : Bool
  ItIsRenameActually : Bool
  Error : Option String
  WatchedDir : String
  Watcher : Nat
deriving DecidableEq, Repr

def WatcherEvent.IsError (we : WatcherEvent) : Bool := we.Typ == advfswatcher.IsError
def WatcherEvent.IsCreated (we : WatcherEvent) : Bool := we.Typ == advfswatcher.IsCreated
def WatcherEvent.IsDeleted (we : WatcherEvent) : Bool := we.Typ == advfswatcher.IsDeleted
def WatcherEvent.IsModified (we : WatcherEvent) : Bool := we.Typ == advfswatcher.IsModified

def ErrorUnknownEvent : String := "strange event type from internal watcher"

/-! ## Go maps with string keys, as association lists with unique keys -/

def mapGet {V : Type} (m : List (String × V)) (k : String) : Option V :=
  match m with
  | [] => none
  | (k1, v) :: rest => if k1 = k then some v else mapGet rest k

def mapDelete {V : Type} (m : List (String × V)) (k : String) : List (String × V) :=
  match m with
  | [] => []
  | (k1, v) :: rest => if k1 = k then mapDelete rest k else (k1, v) :: mapDelete rest k

def mapSet {V : Type} (m : List (String × V)) (k : String) (v : V) : List (String × V) :=
  match m with
  | [] => [(k, v)]
  | (k1, v1) :: rest => if k1 = k then (k, v) :: mapDelete rest k else (k1, v1) :: mapSet rest k v

/-! ## The per-file tracker and the per-directory registry -/

/-- The record `fileEventsProcessingStruct` without its mutex and without
`papa`, which is passed explicitly. -/
structure fileEventsProcessingStruct where
  fileName : String
  lastEventTime : Int
  lastModifiedEventTime : Int
  queuedModificationEvent : Option WatcherEvent
deriving DecidableEq, Repr

/-- The record `dirFileEventsProcessingStruct` without its mutex and without
`resultingChan`, whose sends are returned by the operations. -/
structure dirFileEventsProcessingStruct where
  files : List (String × fileEventsProcessingStruct)
  modTrackingDelayMs : Int
deriving DecidableEq, Repr

def makeQueues (_dir : String) (MaxDelayForModificationEventsMs : Int) :
    dirFileEventsProcessingStruct :=
  let r : dirFileEventsProcessingStruct :=
    { files := [], modTrackingDelayMs := MaxDelayForModificationEventsMs }
  if r.modTrackingDelayMs = 0 then { r with modTrackingDelayMs := 1000 } else r

def dirFileEventsProcessingStruct.Remove (d : dirFileEventsProcessingStruct)
    (filename : String) : dirFileEventsProcessingStruct :=
  { d with files := mapDelete d.files filename }

/-- The method `fileEventsProcessingStruct.Process`: `now` is the value of
`makeTimestampMs()`; the result is the tracker afterwards and the events sent
to `p.papa.resultingChan`, in order. -/
def fileEventsProcessingStruct.Process (p : fileEventsProcessingStruct) (ev : WatcherEvent)
    (now : Int) : fileEventsProcessingStruct × List WatcherEvent :=
  let p1 := { p with lastEventTime := now }
  if ev.IsModified || ev.IsCreated then
    let p2 := { p1 with lastModifiedEventTime := p1.lastEventTime }
    match p2.queuedModificationEvent with
    | none => ({ p2 with queuedModificationEvent := some ev }, [])
    | some q =>
      if !q.IsCreated then
        ({ p2 with queuedModificationEvent := some ev }, [])
      else if ev.IsCreated then
        ({ p2 with queuedModificationEvent := some ev }, [q])
      else
        (p2, [])
  else
    match p1.queuedModificationEvent with
    | some q => ({ p1 with queuedModificationEvent := none }, [q, ev])
    | none => (p1, [ev])

/-- What one call of `dirFileEventsProcessingStruct.Process` leaves behind. -/
structure RouteResult where
  d : dirFileEventsProcessingStruct
  sent : List WatcherEvent
  /-- The tracker on which `go f.AutoRemoveSomeday()` was started, as it
  was at the `go` statement. -/
  spawned : Option fileEventsProcessingStruct
deriving DecidableEq, Repr

/-- The method `dirFileEventsProcessingStruct.Process`: `tNew` is the timestamp
read when a tracker is created and `tProc` the one read by the tracker's own
`Process`. -/
def dirFileEventsProcessingStruct.Process (d : dirFileEventsProcessingStruct)
    (ev : WatcherEvent) (tNew tProc : Int) : RouteResult :=
  if d.modTrackingDelayMs ≤ 0 then
    { d := d, sent := [ev], spawned := none }
  else
    match mapGet d.files ev.FullFileName with
    | some f =>
      let r := f.Process ev tProc
      { d := { d with files := mapSet d.files ev.FullFileName r.1 }, sent := r.2,
        spawned := none }
    | none =>
      let f : fileEventsProcessingStruct :=
        { fileName := ev.FullFileName, lastEventTime := tNew, lastModifiedEventTime := 0,
          queuedModificationEvent := none }
      let r := f.Process ev tProc
      { d := { d with files := mapSet d.files ev.FullFileName r.1 }, sent := r.2,
        spawned := some f }

/-! ## The watchdog `AutoRemoveSomeday` -/

/-- The local variables of `AutoRemoveSomeday`. -/
structure Watchdog where
  memory : Int
  lastmod : Int
  fileSize : Int
  modTime : Int
  changed : Bool
deriving DecidableEq, Repr

/-- The statements of `AutoRemoveSomeday` before its loop; `stat` is the result
of `FileSizeAndModTime(p.fileName)`. -/
def fileEventsProcessingStruct.AutoRemoveSomedayInit (p : fileEventsProcessingStruct)
    (stat : Int × Int) : Watchdog :=
  { memory := p.lastEventTime, lastmod := p.lastEventTime, fileSize := stat.1,
    modTime := stat.2, changed := false }

/-- What one iteration of the loop of `AutoRemoveSomeday` leaves behind. -/
structure WakeResult where
  d : dirFileEventsProcessingStruct
  p : fileEventsProcessingStruct
  w : Watchdog
  sent : List WatcherEvent
  /-- The iteration left the loop by `break`. -/
  stopped : Bool
deriving DecidableEq, Repr

/-- One iteration of the loop of `AutoRemoveSomeday`, after the sleep: `now` is
`makeTimestampMs()`, `isbusy` is `IsFileBusy(p.fileName)` and `stat` is what
`FileSizeAndModTime(p.fileName)` returns if the iteration calls it. -/
def fileEventsProcessingStruct.AutoRemoveSomedayWake (d : dirFileEventsProcessingStruct)
    (p : fileEventsProcessingStruct) (w : Watchdog) (now : Int) (isbusy : Bool)
    (stat : Int × Int) : WakeResult :=
  let w1 := if w.memory ≠ p.lastEventTime then { w with lastmod := now } else w
  if wrap64 (now - w1.lastmod) > wrap64 (d.modTrackingDelayMs * 2) && !w1.changed && !isbusy then
    { d := d.Remove p.fileName, p := p, w := w1, sent := [], stopped := true }
  else
    let w2 :=
      match p.queuedModificationEvent with
      | some _ =>
        { w1 with changed := decide (w1.fileSize ≠ stat.1) || decide (w1.modTime ≠ stat.2),
                  fileSize := stat.1, modTime := stat.2 }
      | none => w1
    match p.queuedModificationEvent with
    | some q =>
      if wrap64 (now - p.lastModifiedEventTime) > d.modTrackingDelayMs && !w2.changed
          && !isbusy then
        { d := d, p := { p with queuedModificationEvent := none }, w := w2, sent := [q],
          stopped := false }
      else
        { d := d, p := p, w := w2, sent := [], stopped := false }
    | none => { d := d, p := p, w := w2, sent := [], stopped := false }

/-- The events a call sequence of `Process` on one tracker sends, with the
timestamp each call reads. -/
def fileEventsProcessingStruct.ProcessAll (p : fileEventsProcessingStruct) :
    List (WatcherEvent × Int) → fileEventsProcessingStruct × List WatcherEvent
  | [] => (p, [])
  | (ev, now) :: rest =>
    let r := p.Process ev now
    let s := fileEventsProcessingStruct.ProcessAll r.1 rest
    (s.1, r.2 ++ s.2)

/-! ## One tracker under a schedule of `Process` calls and watchdog wakes -/

/-- What happens to one tracker: a call of its `Process`, or an iteration of
the loop of its watchdog. -/
inductive TrackerAction where
  | process (ev : WatcherEvent) (now : Int)
  | wake (now : Int) (isbusy : Bool) (stat : Int × Int)
deriving DecidableEq, Repr

/-- A tracker, its registry, its watchdog and everything sent so far. -/
structure TrackerState where
  d : dirFileEventsProcessingStruct
  p : fileEventsProcessingStruct
  w : Watchdog
  /-- The loop of `AutoRemoveSomeday` is still running. -/
  running : Bool
  out : List WatcherEvent
deriving DecidableEq, Repr

def TrackerState.step (s : TrackerState) : TrackerAction → TrackerState
  | .process ev now =>
    let r := s.p.Process ev now
    { s with p := r.1, out := s.out ++ r.2 }
  | .wake now isbusy stat =>
    if s.running then
      let r := s.p.AutoRemoveSomedayWake s.d s.w now isbusy stat
      { d := r.d, p := r.p, w := r.w, running := !r.stopped, out := s.out ++ r.sent }
    else s

def TrackerState.run (s : TrackerState) (acts : List TrackerAction) : TrackerState :=
  acts.foldl TrackerState.step s

/-- The events that `Process` was called with, in order. -/
def observed : List TrackerAction → List WatcherEvent
  | [] => []
  | .process ev _ :: rest => ev :: observed rest
  | .wake _ _ _ :: rest => observed rest

/-- The most recent Created or Modified event of a history. -/
def latestBurst (hist : List WatcherEvent) : Option WatcherEvent :=
  (hist.filter (fun e => e.IsCreated || e.IsModified)).getLast?

/-! ## The registry with its watchdogs under a schedule -/

/-- A step of the whole registry: an event routed by
`dirFileEventsProcessingStruct.Process` (`stat` is what the new watchdog, if
one is started, reads before its loop), or a wake of the watchdog of the
tracker of `path`. -/
inductive SysAction where
  | route (ev : WatcherEvent) (tNew tProc : Int) (stat : Int × Int)
  | wake (path : String) (now : Int) (isbusy : Bool) (stat : Int × Int)
deriving DecidableEq, Repr

/-- A registry, the watchdogs running for its trackers (by `fileName`) and the
content of the output stream. -/
structure System where
  d : dirFileEventsProcessingStruct
  dogs : List (String × Watchdog)
  out : List WatcherEvent
deriving DecidableEq, Repr

/-- A started watchdog runs the statements before its loop at the `go`
statement, so `memory` is the `lastEventTime` of the new tracker. -/
def System.step (s : System) : SysAction → System
  | .route ev tNew tProc stat =>
    let r := s.d.Process ev tNew tProc
    match r.spawned with
    | some f =>
      { d := r.d, dogs := mapSet s.dogs f.fileName (f.AutoRemoveSomedayInit stat),
        out := s.out ++ r.sent }
    | none => { d := r.d, dogs := s.dogs, out := s.out ++ r.sent }
  | .wake path now isbusy stat =>
    match mapGet s.d.files path, mapGet s.dogs path with
    | some p, some w =>
      let r := p.AutoRemoveSomedayWake s.d w now isbusy stat
      if r.stopped then
        { d := r.d, dogs := mapDelete s.dogs path, out := s.out ++ r.sent }
      else
        { d := { r.d with files := mapSet r.d.files path r.p },
          dogs := mapSet s.dogs path r.w, out := s.out ++ r.sent }
    | _, _ => s

def System.run (s : System) (acts : List SysAction) : System :=
  acts.foldl System.step s

/-! ## Path and event normalisation (`watcher.go`) -/

/-- The function `strings.LastIndex(s, sep)` for a separator of one character;
`-1` when it does not occur. -/
def LastIndex : List Char → Char → Int
  | [], _ => -1
  | x :: xs, c =>
    let r := LastIndex xs c
    if r > -1 then r + 1 else if x = c then 0 else -1

/-- The value of `relative` in `getFullName`: the path before
`filepath.Abs`. -/
def getFullNameRelative (dir name : String) : String :=
  let name1 : List Char := name.data.map (fun c => if c = Char.ofNat 92 then '/' else c)
  let i := LastIndex name1 '/'
  let name2 := if i > -1 then name1.drop (i + 1).toNat else name1
  let dir1 :=
    if !(dir.data.head? == some '/') && !(dir.data.head? == some (Char.ofNat 92)) then
      dir ++ "/"
    else dir
  dir1 ++ String.mk name2

/-- The function `getFullName`; `abs` is `filepath.Abs`, `none` being its
error. -/
def getFullName (abs : String → Option String) (dir name : String) : String :=
  let relative := getFullNameRelative dir name
  match abs relative with
  | some res => res
  | none => relative

/-- A notification of the raw source: its name and what the methods
`IsModify`, `IsCreate`, `IsAttrib`, `IsRename` and `IsDelete` return. -/
structure FileEvent where
  Name : String
  IsModify : Bool
  IsCreate : Bool
  IsAttrib : Bool
  IsRename : Bool
  IsDelete : Bool
deriving DecidableEq, Repr

/-- The function `FileExists`; `statOk` tells whether `os.Stat` succeeds. -/
def FileExists (statOk : String → Bool) (filename : String) : Bool :=
  if filename = "" then false else statOk filename

/-- The event that the loop of `WatchDirs` builds from a notification `ev` of
the watched directory `dir` before it calls `fileEventQueues.Process`. -/
def WatchDirsEvent (abs : String → Option String) (statOk : String → Bool) (res : Nat)
    (dir : String) (ev : FileEvent) : WatcherEvent :=
  let filename := getFullName abs dir ev.Name
  let e : WatcherEvent :=
    { FullFileName := filename, Typ := 0, StartupEvent := false, ItIsRenameActually := false,
      Error := none, WatchedDir := dir, Watcher := res }
  if ev.IsModify then { e with Typ := IsModified }
  else if ev.IsCreate then { e with Typ := IsCreated }
  else if ev.IsAttrib then { e with Typ := IsModified }
  else if ev.IsRename then
    let e1 := { e with ItIsRenameActually := true }
    if FileExists statOk e1.FullFileName then { e1 with Typ := IsCreated }
    else { e1 with Typ := IsDeleted }
  else if ev.IsDelete then { e with Typ := IsDeleted }
  else { e with Error := some ErrorUnknownEvent }

/-! ## Sample data -/

/-- An event of kind `typ` for `path`, as the loop of `WatchDirs` builds it for
the watched directory `/w`. -/
def mkEvent (path : String) (typ : Int) : WatcherEvent :=
  { FullFileName := path, Typ := typ, StartupEvent := false, ItIsRenameActually := false,
    Error := none, WatchedDir := "/w", Watcher := 0 }

/-- The tracker that `dirFileEventsProcessingStruct.Process` creates for
`path` at time `t`. -/
def newTracker (path : String) (t : Int) : fileEventsProcessingStruct :=
  { fileName := path, lastEventTime := t, lastModifiedEventTime := 0,
    queuedModificationEvent := none }

/-- The queue of tracker `p` agrees with the history `hist` of the events its
`Process` was called with: a queued event is a Created or Modified event of
the history that is either its last event, or a Created event after which
only Modified events came. -/
def QueueInv (hist : List WatcherEvent) (p : fileEventsProcessingStruct) : Prop :=
  ∀ q, p.queuedModificationEvent = some q →
    (q.IsCreated || q.IsModified) = true ∧
      ∃ pre post, hist = pre ++ q :: post ∧ (∀ e ∈ post, e.IsModified = true) ∧
        (post = [] ∨ q.IsCreated = true)

/-- A notification on which none of the five methods of the raw source
answers true. -/
def unknownFileEvent (name : String) : FileEvent :=
  { Name := name, IsModify := false, IsCreate := false, IsAttrib := false, IsRename := false,
    IsDelete := false }

/-- The registry of `WatchDirs` for the directory `/w` before any event. -/
def startSystem : System :=
  { d := makeQueues "/w" 500, dogs := [], out := [] }

/-- One Modified event for `/w/a` at time 1000, then the wakes of its watchdog
every 125 ms while the file is busy, up to time 2000. -/
def busySchedule : List SysAction :=
  [.route (mkEvent "/w/a" IsModified) 1000 1000 (10, 5),
    .wake "/w/a" 1125 true (10, 5), .wake "/w/a" 1250 true (10, 5),
    .wake "/w/a" 1375 true (10, 5), .wake "/w/a" 1500 true (10, 5),
    .wake "/w/a" 1625 true (10, 5), .wake "/w/a" 1750 true (10, 5),
    .wake "/w/a" 1875 true (10, 5), .wake "/w/a" 2000 true (10, 5)]

/-- Two Modified events for `/w/a` at times 1000 and 1010, then the wakes of
the watchdog every 125 ms up to time 2125, the file being idle and unchanged. -/
def quietSchedule : List SysAction :=
  [.route (mkEvent "/w/a" IsModified) 1000 1000 (10, 5),
    .route (mkEvent "/w/a" IsModified) 1010 1010 (10, 5),
    .wake "/w/a" 1125 false (10, 5), .wake "/w/a" 1250 false (10, 5),
    .wake "/w/a" 1375 false (10, 5), .wake "/w/a" 1500 false (10, 5),
    .wake "/w/a" 1625 false (10, 5), .wake "/w/a" 1750 false (10, 5),
    .wake "/w/a" 1875 false (10, 5), .wake "/w/a" 2000 false (10, 5),
    .wake "/w/a" 2125 false (10, 5)]

/-! ## Helper lemmas -/

theorem burst_of_terminal (ev : WatcherEvent)
    (h : ev.IsDeleted = true ∨ ev.IsError = true) :
    (ev.IsModified || ev.IsCreated) = false := by
  simp only [WatcherEvent.IsDeleted, WatcherEvent.IsError, WatcherEvent.IsModified,
    WatcherEvent.IsCreated, IsDeleted, IsError, IsModified, IsCreated, beq_iff_eq] at h
  simp only [WatcherEvent.IsModified, WatcherEvent.IsCreated, IsModified, IsCreated,
    Bool.or_eq_false_iff, beq_eq_false_iff_ne]
  rcases h with h | h <;> rw [h] <;> decide

theorem created_of_modified (ev : WatcherEvent) (h : ev.IsModified = true) :
    ev.IsCreated = false := by
  simp only [WatcherEvent.IsModified, IsModified, beq_iff_eq] at h
  simp only [WatcherEvent.IsCreated, IsCreated, beq_eq_false_iff_ne]
  rw [h]; decide

/-- A terminal event sends the queued event, if any, then itself, and empties
the queue. -/
theorem Process_of_terminal (p : fileEventsProcessingStruct) (ev : WatcherEvent) (now : Int)
    (h : (ev.IsModified || ev.IsCreated) = false) :
    p.Process ev now =
      ({ p with lastEventTime := now, queuedModificationEvent := none },
        p.queuedModificationEvent.toList ++ [ev]) := by
  obtain ⟨fn, t1, t2, q⟩ := p
  cases q <;> simp [fileEventsProcessingStruct.Process, h]

/-- A Modified event replaces a queue that holds no Created event and sends
nothing. -/
theorem Process_of_modified (p : fileEventsProcessingStruct) (ev : WatcherEvent) (now : Int)
    (hm : ev.IsModified = true)
    (hq : ∀ q, p.queuedModificationEvent = some q → q.IsCreated = false) :
    p.Process ev now =
      ({ p with lastEventTime := now, lastModifiedEventTime := now,
                queuedModificationEvent := some ev }, []) := by
  obtain ⟨fn, t1, t2, q⟩ := p
  cases q with
  | none => simp [fileEventsProcessingStruct.Process, hm]
  | some q0 =>
    have := hq q0 rfl
    simp [fileEventsProcessingStruct.Process, hm, this]

/-- A Created event is queued; a queued Created event is sent first. -/
theorem Process_of_created (p : fileEventsProcessingStruct) (ev : WatcherEvent) (now : Int)
    (hc : ev.IsCreated = true) :
    p.Process ev now =
      ({ p with lastEventTime := now, lastModifiedEventTime := now,
                queuedModificationEvent := some ev },
        match p.queuedModificationEvent with
        | some q => if q.IsCreated then [q] else []
        | none => []) := by
  obtain ⟨fn, t1, t2, q⟩ := p
  cases q with
  | none => simp [fileEventsProcessingStruct.Process, hc]
  | some q0 =>
    cases hq : q0.IsCreated <;> simp [fileEventsProcessingStruct.Process, hc, hq]

/-- A wake sends nothing, or exactly the queued event, which it then removes
from the queue. -/
theorem Wake_sent (d : dirFileEventsProcessingStruct) (p : fileEventsProcessingStruct)
    (w : Watchdog) (now : Int) (isbusy : Bool) (stat : Int × Int) :
    ((p.AutoRemoveSomedayWake d w now isbusy stat).sent = [] ∧
        (p.AutoRemoveSomedayWake d w now isbusy stat).p = p) ∨
      (∃ q, p.queuedModificationEvent = some q ∧
        (p.AutoRemoveSomedayWake d w now isbusy stat).sent = [q] ∧
        (p.AutoRemoveSomedayWake d w now isbusy stat).p =
          { p with queuedModificationEvent := none } ∧
        (p.AutoRemoveSomedayWake d w now isbusy stat).stopped = false) := by
  unfold fileEventsProcessingStruct.AutoRemoveSomedayWake
  obtain ⟨fn, t1, t2, q⟩ := p
  cases q <;> simp only [] <;> split_ifs <;> simp

theorem ProcessAll_modified (evs : List (WatcherEvent × Int)) (hne : evs ≠ [])
    (hmod : ∀ e ∈ evs, e.1.IsModified = true) (p : fileEventsProcessingStruct)
    (hq : ∀ q, p.queuedModificationEvent = some q → q.IsCreated = false) :
    (p.ProcessAll evs).2 = [] ∧
      (p.ProcessAll evs).1.queuedModificationEvent = some (evs.getLast hne).1 := by
  induction evs generalizing p with
  | nil => exact absurd rfl hne
  | cons e rest ih =>
    obtain ⟨ev, now⟩ := e
    have hm : ev.IsModified = true := hmod (ev, now) (List.mem_cons_self _ _)
    have hstep := Process_of_modified p ev now hm hq
    cases rest with
    | nil => simp [fileEventsProcessingStruct.ProcessAll, hstep]
    | cons e2 rest2 =>
      have hmod2 : ∀ e ∈ e2 :: rest2, e.1.IsModified = true :=
        fun e he => hmod e (List.mem_cons_of_mem _ he)
      have hq2 : ∀ q, (p.Process ev now).1.queuedModificationEvent = some q →
          q.IsCreated = false := by
        intro q hqq
        rw [hstep] at hqq
        simp only [Option.some.injEq] at hqq
        rw [← hqq]
        exact created_of_modified ev hm
      have h2 := ih (List.cons_ne_nil _ _) hmod2 (p.Process ev now).1 hq2
      have hlast : (((ev, now) :: e2 :: rest2).getLast hne) =
          ((e2 :: rest2).getLast (List.cons_ne_nil _ _)) := by
        simp [List.getLast_cons]
      rw [hlast]
      constructor
      · show (p.Process ev now).2 ++ ((p.Process ev now).1.ProcessAll (e2 :: rest2)).2 = []
        rw [h2.1, hstep]
        rfl
      · exact h2.2

/-- C1: for every tracker and every Deleted or Error event `ev`, `Process`
sends exactly the queued event, if there is one, followed by `ev`, and leaves
the queue empty; a Modified event `m` processed on an empty queue right before
a terminal `ev` makes the two calls send exactly `m` then `ev`. -/
theorem Process_terminal_flushes_queue (p : fileEventsProcessingStruct) (ev : WatcherEvent)
    (now : Int) (hev : ev.IsDeleted = true ∨ ev.IsError = true) :
    (p.Process ev now).2 = p.queuedModificationEvent.toList ++ [ev] ∧
      (p.Process ev now).1.queuedModificationEvent = none ∧
      ∀ (m : WatcherEvent) (t : Int), m.IsModified = true →
        p.queuedModificationEvent = none →
        (p.ProcessAll [(m, t), (ev, now)]).2 = [m, ev] ∧
          (p.ProcessAll [(m, t), (ev, now)]).1.queuedModificationEvent = none := by
  have hb := burst_of_terminal ev hev
  refine ⟨by rw [Process_of_terminal p ev now hb], by rw [Process_of_terminal p ev now hb], ?_⟩
  intro m t hm hq
  have h1 := Process_of_modified p m t hm (by intro q hqq; rw [hq] at hqq; cases hqq)
  simp [fileEventsProcessingStruct.ProcessAll, h1, Process_of_terminal _ ev now hb]

theorem Process_terminal_flushes_queue_witness :
    ((mkEvent "/w/a" IsDeleted).IsDeleted = true ∨ (mkEvent "/w/a" IsDeleted).IsError = true) ∧
      ((newTracker "/w/a" 0).ProcessAll
          [(mkEvent "/w/a" IsModified, 1), (mkEvent "/w/a" IsDeleted, 2)]).2 =
        [mkEvent "/w/a" IsModified, mkEvent "/w/a" IsDeleted] :=
  ⟨Or.inl (by decide),
    ((Process_terminal_flushes_queue (newTracker "/w/a" 0) (mkEvent "/w/a" IsDeleted) 2
      (Or.inl (by decide))).2.2 (mkEvent "/w/a" IsModified) 1 (by decide) rfl).1⟩

/-- C2: a non-empty burst of Modified events processed from an empty queue,
with no watchdog wake in between, sends nothing and leaves exactly its last
event queued; a later wake that sends anything sends exactly that one event
and empties the queue. -/
theorem Process_modified_burst_coalesces (p : fileEventsProcessingStruct)
    (evs : List (WatcherEvent × Int)) (hne : evs ≠ [])
    (hq : p.queuedModificationEvent = none)
    (hmod : ∀ e ∈ evs, e.1.IsModified = true) :
    (p.ProcessAll evs).2 = [] ∧
      (p.ProcessAll evs).1.queuedModificationEvent = some (evs.getLast hne).1 ∧
      ∀ (d : dirFileEventsProcessingStruct) (w : Watchdog) (now : Int) (isbusy : Bool)
        (stat : Int × Int),
        ((p.ProcessAll evs).1.AutoRemoveSomedayWake d w now isbusy stat).sent ≠ [] →
        ((p.ProcessAll evs).1.AutoRemoveSomedayWake d w now isbusy stat).sent =
            [(evs.getLast hne).1] ∧
          ((p.ProcessAll evs).1.AutoRemoveSomedayWake d w now isbusy
            stat).p.queuedModificationEvent = none := by
  have h := ProcessAll_modified evs hne hmod p (by intro q hqq; rw [hq] at hqq; cases hqq)
  refine ⟨h.1, h.2, ?_⟩
  intro d w now isbusy stat hsent
  rcases Wake_sent d (p.ProcessAll evs).1 w now isbusy stat with hw | ⟨q, hqq, hs, hp, _⟩
  · exact absurd hw.1 hsent
  · rw [h.2] at hqq
    simp only [Option.some.injEq] at hqq
    rw [hs, hp, hqq]
    exact ⟨rfl, rfl⟩

/-- C3: two Created events processed from an empty queue, with no watchdog wake
in between, send exactly the first and leave the second queued; with a later
wake that sends anything the output is the first then the second. -/
theorem Process_double_created_keeps_both (p : fileEventsProcessingStruct)
    (c1 c2 : WatcherEvent) (t1 t2 : Int) (hq : p.queuedModificationEvent = none)
    (h1 : c1.IsCreated = true) (h2 : c2.IsCreated = true) :
    (p.ProcessAll [(c1, t1)]).2 = [] ∧
      (p.ProcessAll [(c1, t1), (c2, t2)]).2 = [c1] ∧
      (p.ProcessAll [(c1, t1), (c2, t2)]).1.queuedModificationEvent = some c2 ∧
      ∀ (d : dirFileEventsProcessingStruct) (w : Watchdog) (now : Int) (isbusy : Bool)
        (stat : Int × Int),
        ((p.ProcessAll [(c1, t1), (c2, t2)]).1.AutoRemoveSomedayWake d w now isbusy
          stat).sent ≠ [] →
        (p.ProcessAll [(c1, t1), (c2, t2)]).2 ++
            ((p.ProcessAll [(c1, t1), (c2, t2)]).1.AutoRemoveSomedayWake d w now isbusy
              stat).sent = [c1, c2] ∧
          ((p.ProcessAll [(c1, t1), (c2, t2)]).1.AutoRemoveSomedayWake d w now isbusy
            stat).p.queuedModificationEvent = none := by
  have e1 := Process_of_created p c1 t1 h1
  rw [hq] at e1
  have e2 := Process_of_created (p.Process c1 t1).1 c2 t2 h2
  rw [e1] at e2
  simp only [h1, if_true] at e2
  have hall : p.ProcessAll [(c1, t1), (c2, t2)] =
      ({ p with lastEventTime := t2, lastModifiedEventTime := t2,
                queuedModificationEvent := some c2 }, [c1]) := by
    simp [fileEventsProcessingStruct.ProcessAll, e1, e2]
  refine ⟨by simp [fileEventsProcessingStruct.ProcessAll, e1], by rw [hall], by rw [hall], ?_⟩
  intro d w now isbusy stat hsent
  rcases Wake_sent d (p.ProcessAll [(c1, t1), (c2, t2)]).1 w now isbusy stat with
    hw | ⟨q, hqq, hs, hp, _⟩
  · exact absurd hw.1 hsent
  · rw [hall] at hqq
    simp only [Option.some.injEq] at hqq
    rw [hs, hp, ← hqq, hall]
    exact ⟨rfl, rfl⟩

theorem Process_modified_burst_coalesces_witness :
    (newTracker "/w/a" 0).queuedModificationEvent = none ∧
      (∀ e ∈ [(mkEvent "/w/a" IsModified, (1 : Int)), (mkEvent "/w/a" IsModified, 2),
          (mkEvent "/w/a" IsModified, 3)], e.1.IsModified = true) ∧
      ((newTracker "/w/a" 0).ProcessAll [(mkEvent "/w/a" IsModified, 1),
          (mkEvent "/w/a" IsModified, 2), (mkEvent "/w/a" IsModified, 3)]).2 = [] ∧
      (((newTracker "/w/a" 0).ProcessAll [(mkEvent "/w/a" IsModified, 1),
          (mkEvent "/w/a" IsModified, 2), (mkEvent "/w/a" IsModified, 3)]).1.AutoRemoveSomedayWake
          (makeQueues "/w" 500) ((newTracker "/w/a" 0).AutoRemoveSomedayInit (0, 0)) 600 false
          (0, 0)).sent = [mkEvent "/w/a" IsModified] :=
  ⟨rfl, by decide,
    (Process_modified_burst_coalesces (newTracker "/w/a" 0)
      [(mkEvent "/w/a" IsModified, 1), (mkEvent "/w/a" IsModified, 2),
        (mkEvent "/w/a" IsModified, 3)] (by decide) rfl (by decide)).1,
    ((Process_modified_burst_coalesces (newTracker "/w/a" 0)
      [(mkEvent "/w/a" IsModified, 1), (mkEvent "/w/a" IsModified, 2),
        (mkEvent "/w/a" IsModified, 3)] (by decide) rfl (by decide)).2.2
      (makeQueues "/w" 500) ((newTracker "/w/a" 0).AutoRemoveSomedayInit (0, 0)) 600 false
      (0, 0) (by decide)).1⟩

theorem Process_double_created_keeps_both_witness :
    (newTracker "/w/b" 0).queuedModificationEvent = none ∧
      (mkEvent "/w/b" IsCreated).IsCreated = true ∧
      ((newTracker "/w/b" 0).ProcessAll
          [(mkEvent "/w/b" IsCreated, 0), (mkEvent "/w/b" IsCreated, 5)]).2 ++
        (((newTracker "/w/b" 0).ProcessAll
          [(mkEvent "/w/b" IsCreated, 0), (mkEvent "/w/b" IsCreated, 5)]).1.AutoRemoveSomedayWake
          (makeQueues "/w" 500) ((newTracker "/w/b" 0).AutoRemoveSomedayInit (0, 0)) 625 false
          (0, 0)).sent = [mkEvent "/w/b" IsCreated, mkEvent "/w/b" IsCreated] :=
  ⟨rfl, by decide,
    ((Process_double_created_keeps_both (newTracker "/w/b" 0) (mkEvent "/w/b" IsCreated)
      (mkEvent "/w/b" IsCreated) 0 5 rfl (by decide) (by decide)).2.2.2
      (makeQueues "/w" 500) ((newTracker "/w/b" 0).AutoRemoveSomedayInit (0, 0)) 625 false
      (0, 0) (by decide)).1⟩

/-! ## The registry -/

theorem mapGet_mapDelete_ne {V : Type} (m : List (String × V)) (k k2 : String) (h : k2 ≠ k) :
    mapGet (mapDelete m k) k2 = mapGet m k2 := by
  induction m with
  | nil => rfl
  | cons kv rest ih =>
    obtain ⟨k1, v1⟩ := kv
    by_cases h1 : k1 = k
    · subst h1
      have h3 : ¬ k1 = k2 := fun e => h e.symm
      simp [mapDelete, mapGet, h3, ih]
    · by_cases h2 : k1 = k2
      · subst h2
        simp [mapDelete, mapGet, h1]
      · simp [mapDelete, mapGet, h1, h2, ih]

theorem mapGet_mapDelete_self {V : Type} (m : List (String × V)) (k : String) :
    mapGet (mapDelete m k) k = none := by
  induction m with
  | nil => rfl
  | cons kv rest ih =>
    obtain ⟨k1, v1⟩ := kv
    by_cases h1 : k1 = k <;> simp [mapDelete, mapGet, h1, ih]

theorem mapGet_mapSet_self {V : Type} (m : List (String × V)) (k : String) (v : V) :
    mapGet (mapSet m k v) k = some v := by
  induction m with
  | nil => simp [mapSet, mapGet]
  | cons kv rest ih =>
    obtain ⟨k1, v1⟩ := kv
    by_cases h1 : k1 = k <;> simp [mapSet, mapGet, h1, ih]

theorem mapGet_mapSet_ne {V : Type} (m : List (String × V)) (k k2 : String) (v : V)
    (h : k2 ≠ k) : mapGet (mapSet m k v) k2 = mapGet m k2 := by
  induction m with
  | nil => simp [mapSet, mapGet, Ne.symm h]
  | cons kv rest ih =>
    obtain ⟨k1, v1⟩ := kv
    by_cases h1 : k1 = k
    · subst h1
      simp [mapSet, mapGet, Ne.symm h, mapGet_mapDelete_ne rest k1 k2 h]
    · by_cases h2 : k1 = k2
      · subst h2
        simp [mapSet, mapGet, h1]
      · simp [mapSet, mapGet, h1, h2, ih]

/-- A notification with none of the known flags becomes an Error event that
carries `ErrorUnknownEvent`. -/
theorem WatchDirsEvent_unknown (abs : String → Option String) (statOk : String → Bool)
    (res : Nat) (dir name : String) :
    (WatchDirsEvent abs statOk res dir (unknownFileEvent name)).IsError = true ∧
      (WatchDirsEvent abs statOk res dir (unknownFileEvent name)).Error =
        some ErrorUnknownEvent := by
  simp [WatchDirsEvent, unknownFileEvent, WatcherEvent.IsError, IsError]

/-- C5, as stated, fails for `q = 0`: `makeQueues` replaces it by 1000 ms, so a
Modified event is queued in a new tracker and nothing is sent. -/
theorem makeQueues_zero_coalesces :
    (makeQueues "/w" 0).modTrackingDelayMs = 1000 ∧
      ((makeQueues "/w" 0).Process (mkEvent "/w/a" IsModified) 7 7).sent = [] ∧
      ((makeQueues "/w" 0).Process (mkEvent "/w/a" IsModified) 7 7).spawned =
        some (newTracker "/w/a" 7) ∧
      mapGet ((makeQueues "/w" 0).Process (mkEvent "/w/a" IsModified) 7 7).d.files "/w/a" =
        some { fileName := "/w/a", lastEventTime := 7, lastModifiedEventTime := 7,
               queuedModificationEvent := some (mkEvent "/w/a" IsModified) } := by
  decide

/-- C5, amended: for every negative quiet period `q` the registry built by
`makeQueues` sends every event unchanged and at once, keeps its mapping empty
and starts no watchdog; for `q = 0` the registry works with 1000 ms. -/
theorem makeQueues_negative_passthrough (dir : String) (q : Int) (ev : WatcherEvent)
    (tNew tProc : Int) (hq : q < 0) :
    (makeQueues dir q).Process ev tNew tProc =
        { d := makeQueues dir q, sent := [ev], spawned := none } ∧
      (makeQueues dir q).files = [] ∧
      (makeQueues dir 0).modTrackingDelayMs = 1000 := by
  have h0 : q ≠ 0 := by omega
  have hd : makeQueues dir q = { files := [], modTrackingDelayMs := q } := by
    simp [makeQueues, h0]
  refine ⟨?_, by rw [hd], by simp [makeQueues]⟩
  rw [hd]
  simp [dirFileEventsProcessingStruct.Process, le_of_lt hq]

theorem makeQueues_negative_passthrough_witness :
    (-1 : Int) < 0 ∧
      ((makeQueues "/w" (-1)).Process (mkEvent "/w/a" IsModified) 7 7).sent =
        [mkEvent "/w/a" IsModified] :=
  ⟨by decide,
    congrArg RouteResult.sent
      (makeQueues_negative_passthrough "/w" (-1) (mkEvent "/w/a" IsModified) 7 7
        (by decide)).1⟩

/-- C9, as stated, fails: a Deleted event, and the Error event of an unknown
notification, for a path without tracker are sent, but a tracker is registered
for the path and its watchdog is started. -/
theorem Process_terminal_registers_tracker :
    mapGet (makeQueues "/w" 500).files "/w/a" = none ∧
      ((makeQueues "/w" 500).Process (mkEvent "/w/a" IsDeleted) 7 7).sent =
        [mkEvent "/w/a" IsDeleted] ∧
      mapGet ((makeQueues "/w" 500).Process (mkEvent "/w/a" IsDeleted) 7 7).d.files "/w/a" =
        some { fileName := "/w/a", lastEventTime := 7, lastModifiedEventTime := 0,
               queuedModificationEvent := none } ∧
      ((makeQueues "/w" 500).Process (mkEvent "/w/a" IsDeleted) 7 7).spawned =
        some (newTracker "/w/a" 7) ∧
      (WatchDirsEvent (fun s => some ("/home/" ++ s)) (fun _ => false) 0 "w"
        (unknownFileEvent "a")).IsError = true ∧
      ((makeQueues "w" 500).Process
        (WatchDirsEvent (fun s => some ("/home/" ++ s)) (fun _ => false) 0 "w"
          (unknownFileEvent "a")) 7 7).spawned = some (newTracker "/home/w/a" 7) := by
  decide

/-- C9, amended: in a registry with a positive quiet period, a Deleted or Error
event whose path has no tracker is sent, alone, to the output stream; a tracker
with an empty queue is registered for its path and its watchdog is started;
the trackers of all other paths stay as they were. -/
theorem Process_terminal_without_tracker (d : dirFileEventsProcessingStruct)
    (ev : WatcherEvent) (tNew tProc : Int) (hpos : 0 < d.modTrackingDelayMs)
    (hev : ev.IsDeleted = true ∨ ev.IsError = true)
    (hno : mapGet d.files ev.FullFileName = none) :
    (d.Process ev tNew tProc).sent = [ev] ∧
      (d.Process ev tNew tProc).spawned =
        some { fileName := ev.FullFileName, lastEventTime := tNew, lastModifiedEventTime := 0,
               queuedModificationEvent := none } ∧
      mapGet (d.Process ev tNew tProc).d.files ev.FullFileName =
        some { fileName := ev.FullFileName, lastEventTime := tProc,
               lastModifiedEventTime := 0, queuedModificationEvent := none } ∧
      (∀ k, k ≠ ev.FullFileName → mapGet (d.Process ev tNew tProc).d.files k = mapGet d.files k) ∧
      (d.Process ev tNew tProc).d.modTrackingDelayMs = d.modTrackingDelayMs := by
  have hb := burst_of_terminal ev hev
  have hnot : ¬ d.modTrackingDelayMs ≤ 0 := not_le.mpr hpos
  have hP : d.Process ev tNew tProc =
      { d := { d with
                 files := mapSet d.files ev.FullFileName
                   { fileName := ev.FullFileName, lastEventTime := tProc,
                     lastModifiedEventTime := 0, queuedModificationEvent := none } },
        sent := [ev],
        spawned := some { fileName := ev.FullFileName, lastEventTime := tNew,
                          lastModifiedEventTime := 0, queuedModificationEvent := none } } := by
    simp [dirFileEventsProcessingStruct.Process, hnot, hno, Process_of_terminal _ ev tProc hb]
  rw [hP]
  exact ⟨rfl, rfl, mapGet_mapSet_self _ _ _, fun k hk => mapGet_mapSet_ne _ _ _ _ hk, rfl⟩

theorem Process_terminal_without_tracker_witness :
    (0 < (makeQueues "/w" 500).modTrackingDelayMs) ∧
      ((mkEvent "/w/a" IsDeleted).IsDeleted = true ∨ (mkEvent "/w/a" IsDeleted).IsError = true) ∧
      mapGet (makeQueues "/w" 500).files (mkEvent "/w/a" IsDeleted).FullFileName = none ∧
      ((makeQueues "/w" 500).Process (mkEvent "/w/a" IsDeleted) 7 8).sent =
        [mkEvent "/w/a" IsDeleted] :=
  ⟨by decide, Or.inl (by decide), by decide,
    (Process_terminal_without_tracker (makeQueues "/w" 500) (mkEvent "/w/a" IsDeleted) 7 8
      (by decide) (Or.inl (by decide)) (by decide)).1⟩

/-! ## The queue invariant -/

theorem QueueInv_Process (hist : List WatcherEvent) (p : fileEventsProcessingStruct)
    (ev : WatcherEvent) (now : Int) (h : QueueInv hist p) :
    QueueInv (hist ++ [ev]) (p.Process ev now).1 := by
  obtain ⟨fn, t1, t2, q⟩ := p
  intro q1 hq1
  cases hm : ev.IsModified <;> cases hc : ev.IsCreated
  · -- a terminal event empties the queue
    rw [Process_of_terminal _ ev now (by simp [hm, hc])] at hq1
    cases hq1
  · rw [Process_of_created _ ev now hc] at hq1
    simp only [Option.some.injEq] at hq1
    subst hq1
    exact ⟨by simp [hc], hist, [], rfl, by simp, Or.inl rfl⟩
  · cases q with
    | none =>
      simp only [fileEventsProcessingStruct.Process, hm, hc, Bool.or_false, if_true,
        Option.some.injEq] at hq1
      subst hq1
      exact ⟨by simp [hm], hist, [], rfl, by simp, Or.inl rfl⟩
    | some q0 =>
      cases hq0 : q0.IsCreated
      · simp only [fileEventsProcessingStruct.Process, hm, hc, hq0, Bool.or_false, if_true,
          Bool.not_false, Option.some.injEq] at hq1
        subst hq1
        exact ⟨by simp [hm], hist, [], rfl, by simp, Or.inl rfl⟩
      · simp [fileEventsProcessingStruct.Process, hm, hc, hq0] at hq1
        subst hq1
        obtain ⟨hk, pre, post, hh, hpost, _⟩ := h q0 rfl
        refine ⟨hk, pre, post ++ [ev], by simp [hh], ?_, Or.inr hq0⟩
        intro e he
        rcases List.mem_append.mp he with he | he
        · exact hpost e he
        · simp only [List.mem_singleton] at he
          rw [he]; exact hm
  · rw [Process_of_created _ ev now hc] at hq1
    simp only [Option.some.injEq] at hq1
    subst hq1
    exact ⟨by simp [hc], hist, [], rfl, by simp, Or.inl rfl⟩

theorem QueueInv_Wake (hist : List WatcherEvent) (d : dirFileEventsProcessingStruct)
    (p : fileEventsProcessingStruct) (w : Watchdog) (now : Int) (isbusy : Bool)
    (stat : Int × Int) (h : QueueInv hist p) :
    QueueInv hist (p.AutoRemoveSomedayWake d w now isbusy stat).p := by
  rcases Wake_sent d p w now isbusy stat with hw | ⟨q, _, _, hp, _⟩
  · rw [hw.2]; exact h
  · rw [hp]
    intro q1 hq1
    cases hq1

theorem QueueInv_run (acts : List TrackerAction) (hist : List WatcherEvent) (s : TrackerState)
    (h : QueueInv hist s.p) : QueueInv (hist ++ observed acts) (s.run acts).p := by
  induction acts generalizing hist s with
  | nil => simpa [observed, TrackerState.run] using h
  | cons a rest ih =>
    cases a with
    | process ev now =>
      have h1 : QueueInv (hist ++ [ev]) (s.step (.process ev now)).p :=
        QueueInv_Process hist s.p ev now h
      have h2 := ih (hist ++ [ev]) (s.step (.process ev now)) h1
      simpa [observed, TrackerState.run] using h2
    | wake now isbusy stat =>
      have h1 : QueueInv hist (s.step (.wake now isbusy stat)).p := by
        unfold TrackerState.step
        cases hr : s.running
        · simpa [hr] using h
        · simpa [hr] using QueueInv_Wake hist s.d s.p s.w now isbusy stat h
      have h2 := ih hist (s.step (.wake now isbusy stat)) h1
      simpa [observed, TrackerState.run] using h2

/-- C10, as stated, fails: a Modified event that arrives while a Created event
is queued, which is not the step of a second Created event, leaves the Created
event queued although the Modified event is the most recent Created or Modified
event observed. -/
theorem queued_created_not_latest :
    (((TrackerState.mk (makeQueues "/w" 500) (newTracker "/w/a" 0)
        ((newTracker "/w/a" 0).AutoRemoveSomedayInit (0, 0)) true []).run
        [.process (mkEvent "/w/a" IsCreated) 0,
          .process (mkEvent "/w/a" IsModified) 10]).p.queuedModificationEvent =
        some (mkEvent "/w/a" IsCreated)) ∧
      latestBurst (observed [.process (mkEvent "/w/a" IsCreated) 0,
          .process (mkEvent "/w/a" IsModified) 10]) = some (mkEvent "/w/a" IsModified) ∧
      mkEvent "/w/a" IsCreated ≠ mkEvent "/w/a" IsModified ∧
      (mkEvent "/w/a" IsModified).IsCreated = false := by
  decide

theorem latestBurst_of_QueueInv (hist : List WatcherEvent) (p : fileEventsProcessingStruct)
    (h : QueueInv hist p) (q : WatcherEvent) (hq : p.queuedModificationEvent = some q) :
    latestBurst hist = some q ∨
      (q.IsCreated = true ∧ ∃ m, latestBurst hist = some m ∧ m.IsModified = true) := by
  obtain ⟨hk, pre, post, hh, hpost, hor⟩ := h q hq
  have hfilter : post.filter (fun e => e.IsCreated || e.IsModified) = post := by
    rw [List.filter_eq_self]
    intro e he
    simp [hpost e he]
  have hl : latestBurst hist =
      (pre.filter (fun e => e.IsCreated || e.IsModified) ++ q :: post).getLast? := by
    simp [latestBurst, hh, List.filter_append, List.filter_cons, hk, hfilter]
  rw [hl, List.getLast?_append_cons, List.getLast?_cons]
  rcases hor with hnil | hc
  · left
    simp [hnil]
  · cases hp : post.getLast? with
    | none => left; simp
    | some m =>
      right
      refine ⟨hc, m, by simp, ?_⟩
      exact hpost m (List.mem_of_getLast?_eq_some hp)

/-- C10, amended: after every sequence of `Process` calls and watchdog wakes on
a tracker that started with an empty queue, a queued event is a Created or
Modified event that `Process` has observed, and it is either the last event
observed, or a Created event after which only Modified events were observed (a
queued Created event is kept when Modified events follow it); so it is the most
recent Created or Modified event observed, or it is Created and the most recent
one is Modified. -/
theorem queue_invariant (s : TrackerState) (acts : List TrackerAction)
    (hq : s.p.queuedModificationEvent = none) :
    QueueInv (observed acts) (s.run acts).p ∧
      ∀ q, (s.run acts).p.queuedModificationEvent = some q →
        latestBurst (observed acts) = some q ∨
          (q.IsCreated = true ∧
            ∃ m, latestBurst (observed acts) = some m ∧ m.IsModified = true) := by
  have h0 : QueueInv [] s.p := by
    intro q hqq
    rw [hq] at hqq
    cases hqq
  have h1 : QueueInv (observed acts) (s.run acts).p := by
    simpa using QueueInv_run acts [] s h0
  exact ⟨h1, fun q hqq => latestBurst_of_QueueInv _ _ h1 q hqq⟩

theorem queue_invariant_witness :
    (TrackerState.mk (makeQueues "/w" 500) (newTracker "/w/a" 0)
        ((newTracker "/w/a" 0).AutoRemoveSomedayInit (0, 0)) true
        []).p.queuedModificationEvent = none ∧
      QueueInv
        (observed [.process (mkEvent "/w/a" IsCreated) 0,
          .process (mkEvent "/w/a" IsModified) 10])
        ((TrackerState.mk (makeQueues "/w" 500) (newTracker "/w/a" 0)
          ((newTracker "/w/a" 0).AutoRemoveSomedayInit (0, 0)) true []).run
          [.process (mkEvent "/w/a" IsCreated) 0,
            .process (mkEvent "/w/a" IsModified) 10]).p :=
  ⟨rfl,
    (queue_invariant
      (TrackerState.mk (makeQueues "/w" 500) (newTracker "/w/a" 0)
        ((newTracker "/w/a" 0).AutoRemoveSomedayInit (0, 0)) true [])
      [.process (mkEvent "/w/a" IsCreated) 0, .process (mkEvent "/w/a" IsModified) 10]
      rfl).1⟩

/-! ## The watchdog: self-destruction and flush -/

set_option maxRecDepth 100000

theorem wrap64_zero : wrap64 0 = 0 := by decide

/-- The variable `memory` is never assigned in the loop: once `lastEventTime`
differs from it, every wake sets `lastmod` to `now` and stays in the loop. -/
theorem Wake_never_stops (d : dirFileEventsProcessingStruct) (p : fileEventsProcessingStruct)
    (w : Watchdog) (now : Int) (isbusy : Bool) (stat : Int × Int)
    (hmem : w.memory ≠ p.lastEventTime) (hd : 0 ≤ wrap64 (d.modTrackingDelayMs * 2)) :
    (p.AutoRemoveSomedayWake d w now isbusy stat).stopped = false ∧
      (p.AutoRemoveSomedayWake d w now isbusy stat).d = d ∧
      (p.AutoRemoveSomedayWake d w now isbusy stat).w.memory = w.memory ∧
      (p.AutoRemoveSomedayWake d w now isbusy stat).p.lastEventTime = p.lastEventTime := by
  have hn : ¬ wrap64 (d.modTrackingDelayMs * 2) < 0 := not_lt.mpr hd
  obtain ⟨fn, t1, t2, q⟩ := p
  cases q <;>
    simp only [fileEventsProcessingStruct.AutoRemoveSomedayWake, hmem, sub_self, wrap64_zero,
      ne_eq, not_false_eq_true, if_true, gt_iff_lt, hn, decide_False, Bool.false_and] <;>
    split_ifs <;> simp_all

/-- A wake that stays in the loop with an event queued sends it, and empties the
queue, exactly when the last Created or Modified event is older than the quiet
period, the probe equals the previous one and the file is not busy. -/
theorem Wake_flush_iff (d : dirFileEventsProcessingStruct) (p : fileEventsProcessingStruct)
    (w : Watchdog) (now : Int) (isbusy : Bool) (stat : Int × Int) (q : WatcherEvent)
    (hq : p.queuedModificationEvent = some q)
    (hrun : (p.AutoRemoveSomedayWake d w now isbusy stat).stopped = false) :
    ((wrap64 (now - p.lastModifiedEventTime) > d.modTrackingDelayMs ∧
        w.fileSize = stat.1 ∧ w.modTime = stat.2 ∧ isbusy = false) →
      (p.AutoRemoveSomedayWake d w now isbusy stat).sent = [q] ∧
        (p.AutoRemoveSomedayWake d w now isbusy stat).p.queuedModificationEvent = none) ∧
    (¬ (wrap64 (now - p.lastModifiedEventTime) > d.modTrackingDelayMs ∧
        w.fileSize = stat.1 ∧ w.modTime = stat.2 ∧ isbusy = false) →
      (p.AutoRemoveSomedayWake d w now isbusy stat).sent = [] ∧
        (p.AutoRemoveSomedayWake d w now isbusy stat).p = p) := by
  obtain ⟨fn, t1, t2, q0⟩ := p
  simp only at hq
  subst hq
  revert hrun
  simp only [fileEventsProcessingStruct.AutoRemoveSomedayWake]
  split_ifs <;> simp_all

/-- C4, the code at the failing input: an event is queued, the last Modified
event is older than the quiet period, the probe shows no change and the file is
not busy, yet the wake sends nothing: it removes the tracker and leaves the
loop. -/
theorem Wake_reaps_instead_of_flushing :
    wrap64 (2125 - 1000) > (500 : Int) ∧
      (fileEventsProcessingStruct.AutoRemoveSomedayWake
        { files := [("/w/a", { fileName := "/w/a", lastEventTime := 1000,
                               lastModifiedEventTime := 1000,
                               queuedModificationEvent := some (mkEvent "/w/a" IsModified) })],
          modTrackingDelayMs := 500 }
        { fileName := "/w/a", lastEventTime := 1000, lastModifiedEventTime := 1000,
          queuedModificationEvent := some (mkEvent "/w/a" IsModified) }
        { memory := 1000, lastmod := 1000, fileSize := 10, modTime := 5, changed := false }
        2125 false (10, 5)) =
      { d := { files := [], modTrackingDelayMs := 500 },
        p := { fileName := "/w/a", lastEventTime := 1000, lastModifiedEventTime := 1000,
               queuedModificationEvent := some (mkEvent "/w/a" IsModified) },
        w := { memory := 1000, lastmod := 1000, fileSize := 10, modTime := 5,
               changed := false },
        sent := [], stopped := true } := by
  decide

/-- C6, a reachable run that loses a queued event: a Modified event is queued at
time 1000, the file stays busy for eight wakes, and at the wake of time 2125,
with the event still queued, the watchdog removes its tracker from the registry
and ends; the output stream stays empty. -/
theorem queued_event_lost_by_reaping :
    mapGet (System.run startSystem busySchedule).d.files "/w/a" =
        some { fileName := "/w/a", lastEventTime := 1000, lastModifiedEventTime := 1000,
               queuedModificationEvent := some (mkEvent "/w/a" IsModified) } ∧
      mapGet (System.run startSystem busySchedule).dogs "/w/a" =
        some { memory := 1000, lastmod := 1000, fileSize := 10, modTime := 5,
               changed := false } ∧
      System.run startSystem (busySchedule ++ [.wake "/w/a" 2125 false (10, 5)]) =
        { d := { files := [], modTrackingDelayMs := 500 }, dogs := [], out := [] } := by
  decide

/-- C7, a reachable run in which an idle tracker is never removed: after Modified
events at times 1000 and 1010 and the flush of the queue, the wake of time 2250
finds the last event older than twice the quiet period, no change, no busy
file and no queue, and keeps the tracker; so does every later wake. -/
theorem idle_tracker_never_reaped :
    (System.run startSystem quietSchedule) =
        { d := { files := [("/w/a", { fileName := "/w/a", lastEventTime := 1010,
                                      lastModifiedEventTime := 1010,
                                      queuedModificationEvent := none })],
                 modTrackingDelayMs := 500 },
          dogs := [("/w/a", { memory := 1000, lastmod := 2125, fileSize := 10, modTime := 5,
                              changed := false })],
          out := [mkEvent "/w/a" IsModified] } ∧
      wrap64 (2250 - 1010) > wrap64 (500 * 2) ∧
      (System.run startSystem quietSchedule).step (.wake "/w/a" 2250 false (10, 5)) =
        { d := { files := [("/w/a", { fileName := "/w/a", lastEventTime := 1010,
                                      lastModifiedEventTime := 1010,
                                      queuedModificationEvent := none })],
                 modTrackingDelayMs := 500 },
          dogs := [("/w/a", { memory := 1000, lastmod := 2250, fileSize := 10, modTime := 5,
                              changed := false })],
          out := [mkEvent "/w/a" IsModified] } ∧
      ∀ (lastmod fileSize modTime now : Int) (changed isbusy : Bool) (stat : Int × Int),
        (fileEventsProcessingStruct.AutoRemoveSomedayWake
          { files := [("/w/a", { fileName := "/w/a", lastEventTime := 1010,
                                 lastModifiedEventTime := 1010,
                                 queuedModificationEvent := none })],
            modTrackingDelayMs := 500 }
          { fileName := "/w/a", lastEventTime := 1010, lastModifiedEventTime := 1010,
            queuedModificationEvent := none }
          { memory := 1000, lastmod := lastmod, fileSize := fileSize, modTime := modTime,
            changed := changed }
          now isbusy stat).stopped = false := by
  refine ⟨by decide, by decide, by decide, ?_⟩
  intro lastmod fileSize modTime now changed isbusy stat
  exact (Wake_never_stops _ _ _ now isbusy stat (show (1000 : Int) ≠ 1010 by decide)
    (show (0 : Int) ≤ wrap64 (500 * 2) by decide)).1

/-! ## Path normalisation -/

/-- C8, the code at the failing input: for the absolute directory `/tmp/watch`
and the name `a.txt` no separator is inserted, because `getFullName` tests how
`dir` begins; a directory that does not begin with a separator gets one. -/
theorem getFullName_absolute_dir_no_separator :
    getFullNameRelative "/tmp/watch" "a.txt" = "/tmp/watcha.txt" ∧
      getFullName (fun s => some s) "/tmp/watch" "a.txt" = "/tmp/watcha.txt" ∧
      getFullName (fun _ => none) "/tmp/watch" "sub/a.txt" = "/tmp/watcha.txt" ∧
      getFullNameRelative "tmp/watch" "sub/a.txt" = "tmp/watch/a.txt" := by
  decide

end advfswatcher
